import Mathlib

/-!
Verification development for the OrgaFlow organization-scoped authorization
and webhook-notification core.

The repository ships the React frontend (under `frontend/src`) together with
the GraphQL operation documents it sends to the Django backend.  The backend
resolvers themselves (authorization engine, resource-scoping guard, webhook
registry, event dispatcher) are declared by the spec and invoked by the
frontend but their Python sources are not part of the file set, so those
parts are modelled from the spec (each such definition is marked
`Modelled from the spec:`).  Everything that the frontend itself decides
(role option lists, the webhook list query's field selection, the secret
show/hide toggle, the drag-and-drop handler) is translated directly from the
TypeScript sources.
-/

namespace Orgaflow

/-- Membership role.  The four values and their privilege order
OWNER > ADMIN > MEMBER > VIEWER appear in `TeamManagement.tsx`,
`part_003` and the spec's data model. -/
inductive Role
  | OWNER
  | ADMIN
  | MEMBER
  | VIEWER
deriving DecidableEq, Fintype

/-- Numeric privilege rank realising the total order
OWNER > ADMIN > MEMBER > VIEWER. -/
def roleRank : Role → Nat
  | .OWNER => 3
  | .ADMIN => 2
  | .MEMBER => 1
  | .VIEWER => 0

/-- The closed set of actions of the authorization engine (spec section 4.1). -/
inductive Action
  | projectCreate
  | projectUpdate
  | projectDelete
  | projectRead
  | taskCreate
  | taskUpdate
  | taskDelete
  | taskRead
  | commentCreate
  | commentUpdateOwn
  | commentUpdateOther
  | commentDeleteOwn
  | commentDeleteOther
  | commentRead
  | memberInvite
  | memberRemove
  | memberChangeRole
  | webhookCreate
  | webhookDelete
  | webhookRevealSecret
  | webhookList
deriving DecidableEq, Fintype

/-- Deny reasons of the engine's business taxonomy (spec section 7). -/
inductive DenyReason
  | notAMember
  | insufficientRole
  | lastOwnerProtected
deriving DecidableEq

/-- Result of the authorization decision. -/
inductive AuthzResult
  | allow
  | deny (reason : DenyReason)
deriving DecidableEq

/-- Modelled from the spec: the static privilege table of the authorization
engine (spec section 4.1; the Django resolver holding it is not in the file
set).  Member.changeRole requires OWNER; project and member management and
webhook administration require ADMIN; task work and comments on own content
require MEMBER; comment edits on another user's content require ADMIN;
read actions require VIEWER. -/
def requiredRole : Action → Role
  | .projectCreate => .ADMIN
  | .projectUpdate => .ADMIN
  | .projectDelete => .ADMIN
  | .projectRead => .VIEWER
  | .taskCreate => .MEMBER
  | .taskUpdate => .MEMBER
  | .taskDelete => .MEMBER
  | .taskRead => .VIEWER
  | .commentCreate => .MEMBER
  | .commentUpdateOwn => .MEMBER
  | .commentUpdateOther => .ADMIN
  | .commentDeleteOwn => .MEMBER
  | .commentDeleteOther => .ADMIN
  | .commentRead => .VIEWER
  | .memberInvite => .ADMIN
  | .memberRemove => .ADMIN
  | .memberChangeRole => .OWNER
  | .webhookCreate => .ADMIN
  | .webhookDelete => .ADMIN
  | .webhookRevealSecret => .ADMIN
  | .webhookList => .ADMIN

/-- Modelled from the spec: the authorization decision for a member whose
role is known — Allow iff the actor's role is at least the action's minimum
role in the privilege order, else Deny(InsufficientRole)
(spec section 4.1; the Django engine is not in the file set). -/
def decide (r : Role) (a : Action) : AuthzResult :=
  if roleRank (requiredRole a) ≤ roleRank r then .allow
  else .deny .insufficientRole

/-- C1: for every (role, action) pair the decision matches the static
privilege table: role at least the required role gives Allow, strictly
below gives Deny(InsufficientRole). -/
theorem c1_decide_matches_privilege_table :
    ∀ (r : Role) (a : Action),
      (decide r a = .allow ↔ roleRank (requiredRole a) ≤ roleRank r) ∧
      (decide r a = .deny .insufficientRole ↔
        roleRank r < roleRank (requiredRole a)) := by
  decide

/-- C5: update and delete on another user's comment are allowed exactly for
ADMIN and above, update and delete on the actor's own comment exactly for
MEMBER and above. -/
theorem c5_comment_edit_permissions :
    ∀ r : Role,
      (decide r .commentUpdateOther = .allow ↔
        roleRank Role.ADMIN ≤ roleRank r) ∧
      (decide r .commentDeleteOther = .allow ↔
        roleRank Role.ADMIN ≤ roleRank r) ∧
      (decide r .commentUpdateOwn = .allow ↔
        roleRank Role.MEMBER ≤ roleRank r) ∧
      (decide r .commentDeleteOwn = .allow ↔
        roleRank Role.MEMBER ≤ roleRank r) := by
  decide

/-- A membership fact (user id, organization id, role) — spec section 3;
mirrors the `Member` records consumed in `part_003` and
`TeamManagement.tsx`. -/
structure Membership where
  userId : String
  orgId : String
  role : Role
deriving DecidableEq

/-- The membership store: the set of (user, organization, role) facts. -/
abbrev MembershipStore := List Membership

/-- Predicate selecting the membership row of user `u` in organization
`org`. -/
def membershipMatches (u org : String) (m : Membership) : Bool :=
  m.userId == u && m.orgId == org

/-- Look up the membership row of a user in an organization. -/
def findMembership (s : MembershipStore) (u org : String) : Option Membership :=
  s.find? (membershipMatches u org)

/-- Whether a membership row is an OWNER row of organization `org`. -/
def isOwnerOf (org : String) (m : Membership) : Bool :=
  m.orgId == org && m.role == Role.OWNER

/-- Number of OWNER memberships of an organization (the count the spec's
last-owner rule inspects). -/
def ownerCount (s : MembershipStore) (org : String) : Nat :=
  (s.filter (isOwnerOf org)).length

/-- Errors of the member-management operations (spec section 7 taxonomy;
`targetNotFound` stands for the ResourceNotFound case of a missing target
membership). -/
inductive MemberOpError
  | notAMember
  | insufficientRole
  | lastOwnerProtected
  | targetNotFound
deriving DecidableEq

/-- Replace the role of the first membership row satisfying `p`. -/
def setRole (p : Membership → Bool) (r : Role) : MembershipStore → MembershipStore
  | [] => []
  | m :: ms => if p m then { m with role := r } :: ms else m :: setRole p r ms

/-- Modelled from the spec: the remove-member operation (resolver of
`removeMember` in `memberMutations.ts`, not in the file set).  Caller
membership is resolved first (Deny NotAMember), then the target row; the
last-owner special rule is checked before the role table, so it fires
regardless of the caller's role (spec section 4.1); on success the target
row is removed. -/
def removeMember (s : MembershipStore) (caller org target : String) :
    Except MemberOpError MembershipStore :=
  match findMembership s caller org with
  | none => .error .notAMember
  | some callerM =>
    match findMembership s target org with
    | none => .error .targetNotFound
    | some targetM =>
      if targetM.role = Role.OWNER ∧ ownerCount s org ≤ 1 then
        .error .lastOwnerProtected
      else
        match decide callerM.role .memberRemove with
        | .allow => .ok (s.eraseP (membershipMatches target org))
        | .deny _ => .error .insufficientRole

/-- Modelled from the spec: the change-role operation (resolver of
`changeMemberRole` in `memberMutations.ts`, not in the file set).  Demoting
the organization's last OWNER is denied before the role table is consulted,
regardless of the caller's role (spec section 4.1). -/
def changeMemberRole (s : MembershipStore) (caller org target : String)
    (newRole : Role) : Except MemberOpError MembershipStore :=
  match findMembership s caller org with
  | none => .error .notAMember
  | some callerM =>
    match findMembership s target org with
    | none => .error .targetNotFound
    | some targetM =>
      if targetM.role = Role.OWNER ∧ ownerCount s org ≤ 1 ∧
          newRole ≠ Role.OWNER then
        .error .lastOwnerProtected
      else
        match decide callerM.role .memberChangeRole with
        | .allow => .ok (setRole (membershipMatches target org) newRole s)
        | .deny _ => .error .insufficientRole

/-- Modelled from the spec: the invite-member operation (resolver of
`inviteMember` in `memberMutations.ts`, not in the file set); requires
ADMIN and appends a membership with the requested role. -/
def inviteMember (s : MembershipStore) (caller org newUser : String)
    (role : Role) : Except MemberOpError MembershipStore :=
  match findMembership s caller org with
  | none => .error .notAMember
  | some callerM =>
    match decide callerM.role .memberInvite with
    | .allow => .ok (s ++ [⟨newUser, org, role⟩])
    | .deny _ => .error .insufficientRole

/-- The membership state after an operation: the new store on success, the
unchanged store on a deny. -/
def applyMemberOp (s : MembershipStore) :
    Except MemberOpError MembershipStore → MembershipStore
  | .ok s' => s'
  | .error _ => s

/-- Role values offered by the invite form in `part_003` (the
`inviteRole` state is typed ADMIN | MEMBER | VIEWER at line 34 and the
select at lines 238-240 offers exactly these). -/
def inviteRoleOptions : List Role := [.ADMIN, .MEMBER, .VIEWER]

/-- Role values offered by the change-role selects in `TeamManagement.tsx`
(lines 164-166) and `part_003` (lines 175-177). -/
def changeRoleOptions : List Role := [.ADMIN, .MEMBER, .VIEWER]

lemma ownerCount_nil (org : String) : ownerCount [] org = 0 := rfl

lemma ownerCount_cons (m : Membership) (ms : MembershipStore) (org : String) :
    ownerCount (m :: ms) org =
      (if isOwnerOf org m then 1 else 0) + ownerCount ms org := by
  simp only [ownerCount, List.filter_cons]
  split <;> simp [Nat.add_comm]

lemma ownerCount_append (s t : MembershipStore) (org : String) :
    ownerCount (s ++ t) org = ownerCount s org + ownerCount t org := by
  simp [ownerCount, List.filter_append]

lemma one_le_ownerCount_of_mem {s : MembershipStore} {m : Membership}
    {org : String} (hm : m ∈ s) (h : isOwnerOf org m = true) :
    1 ≤ ownerCount s org := by
  have hmem : m ∈ s.filter (isOwnerOf org) := List.mem_filter.2 ⟨hm, h⟩
  have := List.length_pos.2 (List.ne_nil_of_mem hmem)
  simpa [ownerCount] using this

lemma ownerCount_eraseP (p : Membership → Bool) (org : String) :
    ∀ (s : MembershipStore) (m : Membership), s.find? p = some m →
      ownerCount (s.eraseP p) org =
        ownerCount s org - (if isOwnerOf org m then 1 else 0) := by
  intro s
  induction s with
  | nil => intro m h; simp at h
  | cons a as ih =>
    intro m h
    by_cases hp : p a = true
    · rw [List.find?_cons_of_pos _ hp] at h
      cases h
      rw [List.eraseP_cons_of_pos hp, ownerCount_cons]
      split <;> omega
    · have hp' : ¬ p a := by simpa using hp
      rw [List.find?_cons_of_neg _ hp'] at h
      rw [List.eraseP_cons_of_neg hp', ownerCount_cons, ownerCount_cons,
        ih m h]
      have hmem := List.mem_of_find?_eq_some h
      by_cases ho : isOwnerOf org m = true
      · have := one_le_ownerCount_of_mem hmem ho
        rw [if_pos ho]
        split <;> omega
      · rw [if_neg ho]
        split <;> omega

lemma ownerCount_setRole (p : Membership → Bool) (r : Role) (org : String) :
    ∀ (s : MembershipStore) (m : Membership), s.find? p = some m →
      ownerCount (setRole p r s) org =
        ownerCount s org - (if isOwnerOf org m then 1 else 0)
          + (if m.orgId == org && r == Role.OWNER then 1 else 0) := by
  intro s
  induction s with
  | nil => intro m h; simp at h
  | cons a as ih =>
    intro m h
    by_cases hp : p a = true
    · rw [List.find?_cons_of_pos _ hp] at h
      cases h
      have hsr : setRole p r (a :: as) = { a with role := r } :: as := by
        simp [setRole, hp]
      rw [hsr, ownerCount_cons, ownerCount_cons]
      have hrepl : isOwnerOf org { a with role := r } =
          (a.orgId == org && r == Role.OWNER) := by
        simp [isOwnerOf]
      rw [hrepl]
      by_cases ho : isOwnerOf org a = true <;>
        by_cases hn : (a.orgId == org && r == Role.OWNER) = true <;>
          simp [ho, hn] <;> omega
    · have hp' : ¬ p a := by simpa using hp
      rw [List.find?_cons_of_neg _ hp'] at h
      have hsr : setRole p r (a :: as) = a :: setRole p r as := by
        simp [setRole, hp]
      rw [hsr, ownerCount_cons, ownerCount_cons, ih m h]
      have hmem := List.mem_of_find?_eq_some h
      by_cases ho : isOwnerOf org m = true
      · have := one_le_ownerCount_of_mem hmem ho
        rw [if_pos ho]
        split <;> split <;> omega
      · rw [if_neg ho]
        split <;> split <;> omega

lemma membership_found_fields {s : MembershipStore} {u org : String}
    {m : Membership} (h : findMembership s u org = some m) :
    m ∈ s ∧ (m.userId == u) = true ∧ (m.orgId == org) = true := by
  have hmem := List.mem_of_find?_eq_some h
  have hp := List.find?_some h
  simp only [membershipMatches, Bool.and_eq_true] at hp
  exact ⟨hmem, hp.1, hp.2⟩

lemma isOwnerOf_of_role {m : Membership} {org : String}
    (horg : (m.orgId == org) = true) (h : m.role = Role.OWNER) :
    isOwnerOf org m = true := by
  simp [isOwnerOf, horg, h]

lemma isOwnerOf_eq_false_of_role {m : Membership} {org : String}
    (h : m.role ≠ Role.OWNER) : isOwnerOf org m = false := by
  simp [isOwnerOf, h]

lemma if_false_cond_eq_zero : (if (false = true) then (1 : Nat) else 0) = 0 := rfl

lemma removeMember_preserves_owner (s : MembershipStore)
    (caller org target : String) (h1 : 1 ≤ ownerCount s org) :
    1 ≤ ownerCount (applyMemberOp s (removeMember s caller org target)) org := by
  unfold removeMember
  cases hc : findMembership s caller org with
  | none => simpa [applyMemberOp] using h1
  | some callerM =>
    dsimp only
    cases ht : findMembership s target org with
    | none => simpa [applyMemberOp] using h1
    | some targetM =>
      dsimp only
      by_cases hcond : targetM.role = Role.OWNER ∧ ownerCount s org ≤ 1
      · rw [if_pos hcond]
        simpa [applyMemberOp] using h1
      · rw [if_neg hcond]
        cases hd : decide callerM.role .memberRemove with
        | deny r => simpa [applyMemberOp] using h1
        | allow =>
          dsimp only
          simp only [applyMemberOp]
          have herase := ownerCount_eraseP (membershipMatches target org) org s
            targetM ht
          rw [herase]
          obtain ⟨-, -, horg⟩ := membership_found_fields ht
          by_cases hOwner : targetM.role = Role.OWNER
          · have h2 : ¬ ownerCount s org ≤ 1 := fun hle => hcond ⟨hOwner, hle⟩
            rw [if_pos (isOwnerOf_of_role horg hOwner)]
            omega
          · rw [isOwnerOf_eq_false_of_role hOwner]
            simpa using h1

lemma changeMemberRole_preserves_owner (s : MembershipStore)
    (caller org target : String) (nr : Role) (h1 : 1 ≤ ownerCount s org) :
    1 ≤ ownerCount (applyMemberOp s (changeMemberRole s caller org target nr))
      org := by
  unfold changeMemberRole
  cases hc : findMembership s caller org with
  | none => simpa [applyMemberOp] using h1
  | some callerM =>
    dsimp only
    cases ht : findMembership s target org with
    | none => simpa [applyMemberOp] using h1
    | some targetM =>
      dsimp only
      by_cases hcond : targetM.role = Role.OWNER ∧ ownerCount s org ≤ 1 ∧
          nr ≠ Role.OWNER
      · rw [if_pos hcond]
        simpa [applyMemberOp] using h1
      · rw [if_neg hcond]
        cases hd : decide callerM.role .memberChangeRole with
        | deny r => simpa [applyMemberOp] using h1
        | allow =>
          dsimp only
          simp only [applyMemberOp]
          have hset := ownerCount_setRole (membershipMatches target org) nr org
            s targetM ht
          rw [hset]
          obtain ⟨hmem, -, horg⟩ := membership_found_fields ht
          by_cases hOwner : targetM.role = Role.OWNER
          · have hown := isOwnerOf_of_role horg hOwner
            have hb := one_le_ownerCount_of_mem hmem hown
            rw [if_pos hown]
            by_cases hnr : nr = Role.OWNER
            · have hnew : (targetM.orgId == org && nr == Role.OWNER) = true := by
                simp [horg, hnr]
              rw [if_pos hnew]
              omega
            · have h2 : ¬ ownerCount s org ≤ 1 :=
                fun hle => hcond ⟨hOwner, hle, hnr⟩
              omega
          · rw [isOwnerOf_eq_false_of_role hOwner, if_false_cond_eq_zero]
            omega

lemma ownerCount_removeMember_le (s : MembershipStore)
    (caller org target : String) :
    ownerCount (applyMemberOp s (removeMember s caller org target)) org ≤
      ownerCount s org := by
  unfold removeMember
  cases hc : findMembership s caller org with
  | none => simp [applyMemberOp]
  | some callerM =>
    dsimp only
    cases ht : findMembership s target org with
    | none => simp [applyMemberOp]
    | some targetM =>
      dsimp only
      by_cases hcond : targetM.role = Role.OWNER ∧ ownerCount s org ≤ 1
      · rw [if_pos hcond]; simp [applyMemberOp]
      · rw [if_neg hcond]
        cases hd : decide callerM.role .memberRemove with
        | deny r => simp [applyMemberOp]
        | allow =>
          dsimp only
          simp only [applyMemberOp]
          rw [ownerCount_eraseP (membershipMatches target org) org s targetM ht]
          omega

lemma ownerCount_changeMemberRole_le (s : MembershipStore)
    (caller org target : String) (nr : Role) (hnr : nr ≠ Role.OWNER) :
    ownerCount (applyMemberOp s (changeMemberRole s caller org target nr)) org ≤
      ownerCount s org := by
  unfold changeMemberRole
  cases hc : findMembership s caller org with
  | none => simp [applyMemberOp]
  | some callerM =>
    dsimp only
    cases ht : findMembership s target org with
    | none => simp [applyMemberOp]
    | some targetM =>
      dsimp only
      by_cases hcond : targetM.role = Role.OWNER ∧ ownerCount s org ≤ 1 ∧
          nr ≠ Role.OWNER
      · rw [if_pos hcond]; simp [applyMemberOp]
      · rw [if_neg hcond]
        cases hd : decide callerM.role .memberChangeRole with
        | deny r => simp [applyMemberOp]
        | allow =>
          dsimp only
          simp only [applyMemberOp]
          rw [ownerCount_setRole (membershipMatches target org) nr org s
            targetM ht]
          have hnew : (targetM.orgId == org && nr == Role.OWNER) = false := by
            simp [hnr]
          rw [hnew, if_false_cond_eq_zero]
          omega

lemma ownerCount_inviteMember_le (s : MembershipStore)
    (caller org newUser : String) (role : Role) (hr : role ≠ Role.OWNER) :
    ownerCount (applyMemberOp s (inviteMember s caller org newUser role)) org ≤
      ownerCount s org := by
  unfold inviteMember
  cases hc : findMembership s caller org with
  | none => simp [applyMemberOp]
  | some callerM =>
    dsimp only
    cases hd : decide callerM.role .memberInvite with
    | deny r => simp [applyMemberOp]
    | allow =>
      dsimp only
      simp only [applyMemberOp]
      rw [ownerCount_append]
      have h0 : isOwnerOf org (⟨newUser, org, role⟩ : Membership) = false :=
        @isOwnerOf_eq_false_of_role ⟨newUser, org, role⟩ org hr
      have : ownerCount [(⟨newUser, org, role⟩ : Membership)] org = 0 := by
        simp [ownerCount, List.filter, h0]
      omega

/-- C2: a remove-member or change-role operation whose target is the
organization's only OWNER is denied with LastOwnerProtected whatever the
caller's role, the membership state is unchanged, and (third conjunct)
every remove or change-role operation preserves the invariant that the
organization has at least one OWNER membership. -/
theorem c2_last_owner_protected (s : MembershipStore)
    (caller org target : String) (newRole : Role)
    (callerM targetM : Membership)
    (hc : findMembership s caller org = some callerM)
    (ht : findMembership s target org = some targetM)
    (hrole : targetM.role = Role.OWNER)
    (honly : ownerCount s org = 1)
    (hnr : newRole ∈ changeRoleOptions) :
    (removeMember s caller org target = .error .lastOwnerProtected ∧
      applyMemberOp s (removeMember s caller org target) = s) ∧
    (changeMemberRole s caller org target newRole =
        .error .lastOwnerProtected ∧
      applyMemberOp s (changeMemberRole s caller org target newRole) = s) ∧
    (∀ (s' : MembershipStore) (c t : String) (nr : Role),
      1 ≤ ownerCount s' org →
      1 ≤ ownerCount (applyMemberOp s' (removeMember s' c org t)) org ∧
      1 ≤ ownerCount (applyMemberOp s' (changeMemberRole s' c org t nr)) org) := by
  have hnrOwner : newRole ≠ Role.OWNER := by
    intro hEq
    rw [hEq] at hnr
    simp [changeRoleOptions] at hnr
  have hrm : removeMember s caller org target = .error .lastOwnerProtected := by
    unfold removeMember
    rw [hc, ht]
    dsimp only
    rw [if_pos ⟨hrole, by omega⟩]
  have hcr : changeMemberRole s caller org target newRole =
      .error .lastOwnerProtected := by
    unfold changeMemberRole
    rw [hc, ht]
    dsimp only
    rw [if_pos ⟨hrole, by omega, hnrOwner⟩]
  refine ⟨⟨hrm, ?_⟩, ⟨hcr, ?_⟩, ?_⟩
  · rw [hrm]; rfl
  · rw [hcr]; rfl
  · intro s' c t nr h1
    exact ⟨removeMember_preserves_owner s' c org t h1,
      changeMemberRole_preserves_owner s' c org t nr h1⟩

/-- C2 witness: in a two-member organization whose only OWNER is u1, the
ADMIN u2 can neither remove u1 nor demote u1. -/
theorem c2_last_owner_protected_witness :
    removeMember [⟨"u1", "o1", .OWNER⟩, ⟨"u2", "o1", .ADMIN⟩] "u2" "o1" "u1" =
      .error .lastOwnerProtected ∧
    changeMemberRole [⟨"u1", "o1", .OWNER⟩, ⟨"u2", "o1", .ADMIN⟩]
      "u2" "o1" "u1" .MEMBER = .error .lastOwnerProtected := by
  have h := c2_last_owner_protected
    [⟨"u1", "o1", .OWNER⟩, ⟨"u2", "o1", .ADMIN⟩] "u2" "o1" "u1" .MEMBER
    ⟨"u2", "o1", .ADMIN⟩ ⟨"u1", "o1", .OWNER⟩
    (by decide) (by decide) rfl (by decide) (by decide)
  exact ⟨h.1.1, h.2.1.1⟩

/-- C9: no member-management operation reachable through the interface can
assign OWNER: the invite form and the change-role selects offer only ADMIN,
MEMBER and VIEWER, and with roles drawn from those option lists the number
of OWNER memberships of an organization never grows. -/
theorem c9_owner_never_assigned :
    (Role.OWNER ∉ inviteRoleOptions ∧ Role.OWNER ∉ changeRoleOptions) ∧
    (∀ (s : MembershipStore) (caller org u t : String) (ri rc : Role),
      ri ∈ inviteRoleOptions → rc ∈ changeRoleOptions →
      ownerCount (applyMemberOp s (inviteMember s caller org u ri)) org ≤
        ownerCount s org ∧
      ownerCount (applyMemberOp s (changeMemberRole s caller org t rc)) org ≤
        ownerCount s org ∧
      ownerCount (applyMemberOp s (removeMember s caller org t)) org ≤
        ownerCount s org) := by
  refine ⟨⟨by decide, by decide⟩, ?_⟩
  intro s caller org u t ri rc hri hrc
  have hriOwner : ri ≠ Role.OWNER := by
    intro hEq; rw [hEq] at hri; simp [inviteRoleOptions] at hri
  have hrcOwner : rc ≠ Role.OWNER := by
    intro hEq; rw [hEq] at hrc; simp [changeRoleOptions] at hrc
  exact ⟨ownerCount_inviteMember_le s caller org u ri hriOwner,
    ownerCount_changeMemberRole_le s caller org t rc hrcOwner,
    ownerCount_removeMember_le s caller org t⟩

/-- C9 witness: with the only OWNER u1 and ADMIN u2 in o1, inviting u3 as
MEMBER, changing u2 to VIEWER and removing u2 each leave the OWNER count
at most one. -/
theorem c9_owner_never_assigned_witness :
    Role.MEMBER ∈ inviteRoleOptions ∧ Role.VIEWER ∈ changeRoleOptions ∧
    (ownerCount (applyMemberOp [⟨"u1", "o1", .OWNER⟩, ⟨"u2", "o1", .ADMIN⟩]
        (inviteMember [⟨"u1", "o1", .OWNER⟩, ⟨"u2", "o1", .ADMIN⟩]
          "u1" "o1" "u3" .MEMBER)) "o1" ≤
      ownerCount [⟨"u1", "o1", .OWNER⟩, ⟨"u2", "o1", .ADMIN⟩] "o1" ∧
    ownerCount (applyMemberOp [⟨"u1", "o1", .OWNER⟩, ⟨"u2", "o1", .ADMIN⟩]
        (changeMemberRole [⟨"u1", "o1", .OWNER⟩, ⟨"u2", "o1", .ADMIN⟩]
          "u1" "o1" "u2" .VIEWER)) "o1" ≤
      ownerCount [⟨"u1", "o1", .OWNER⟩, ⟨"u2", "o1", .ADMIN⟩] "o1" ∧
    ownerCount (applyMemberOp [⟨"u1", "o1", .OWNER⟩, ⟨"u2", "o1", .ADMIN⟩]
        (removeMember [⟨"u1", "o1", .OWNER⟩, ⟨"u2", "o1", .ADMIN⟩]
          "u1" "o1" "u2")) "o1" ≤
      ownerCount [⟨"u1", "o1", .OWNER⟩, ⟨"u2", "o1", .ADMIN⟩] "o1") :=
  ⟨by decide, by decide,
    (c9_owner_never_assigned.2 [⟨"u1", "o1", .OWNER⟩, ⟨"u2", "o1", .ADMIN⟩]
      "u1" "o1" "u3" "u2" .MEMBER .VIEWER (by decide) (by decide))⟩

/-- Errors as surfaced to the caller (spec section 7): NotAMember and
ResourceNotFound both surface as `notFound`, while InsufficientRole and
LastOwnerProtected are reported distinctly. -/
inductive SurfacedError
  | notFound
  | insufficientRole
  | lastOwnerProtected
  | validationError
  | deliveryFailed
deriving DecidableEq

/-- A generic organization-owned resource: its id and the id of the owning
organization (spec section 3). -/
structure Resource where
  id : String
  orgId : String
deriving DecidableEq

/-- Resolve a resource's owning organization from its id (the existence
check of the guard). -/
def resolveOrg (resources : List Resource) (rid : String) : Option String :=
  (resources.find? (fun r => r.id == rid)).map (fun r => r.orgId)

/-- Modelled from the spec: the resource-scoping guard (spec section 4.2;
its Django implementation is not in the file set, only callers such as
`ProjectPage.tsx` which surfaces any failure as "Project Not Found").
A nonexistent id surfaces `notFound`; an existing id whose owning
organization the actor has no membership in also surfaces `notFound`
(NotAMember reported identically, spec section 7); otherwise the engine's
role decision applies and on Allow the guard returns the handle scoped to
the owning organization id. -/
def guard (resources : List Resource) (s : MembershipStore)
    (actor rid : String) (a : Action) : Except SurfacedError String :=
  match resolveOrg resources rid with
  | none => .error .notFound
  | some org =>
    match findMembership s actor org with
    | none => .error .notFound
    | some m =>
      match decide m.role a with
      | .allow => .ok org
      | .deny _ => .error .insufficientRole

/-- C3: the guard answers identically for a resource the actor has no
membership for and for an id that does not exist at all, so the two cases
are indistinguishable to the caller. -/
theorem c3_foreign_equals_nonexistent (resources : List Resource)
    (s : MembershipStore) (actor rid ridGone : String) (a : Action)
    (org : String)
    (hres : resolveOrg resources rid = some org)
    (hno : findMembership s actor org = none)
    (hgone : resolveOrg resources ridGone = none) :
    guard resources s actor rid a = guard resources s actor ridGone a ∧
    guard resources s actor rid a = .error .notFound := by
  unfold guard
  rw [hres, hgone]
  dsimp only
  rw [hno]
  exact ⟨rfl, rfl⟩

/-- C3 witness: user u2, a member of nothing, probing project p1 owned by
o1 gets the same `notFound` as probing the nonexistent id p9. -/
theorem c3_foreign_equals_nonexistent_witness :
    guard [⟨"p1", "o1"⟩] [⟨"u1", "o1", .OWNER⟩] "u2" "p1" .projectRead =
      guard [⟨"p1", "o1"⟩] [⟨"u1", "o1", .OWNER⟩] "u2" "p9" .projectRead ∧
    guard [⟨"p1", "o1"⟩] [⟨"u1", "o1", .OWNER⟩] "u2" "p1" .projectRead =
      .error .notFound :=
  c3_foreign_equals_nonexistent [⟨"p1", "o1"⟩] [⟨"u1", "o1", .OWNER⟩]
    "u2" "p1" "p9" .projectRead "o1" (by decide) (by decide) (by decide)

/-- An organization: id, human slug and the out-of-band invite UID
(spec section 3; `GET_MY_ORGANIZATIONS` in `TeamManagement.tsx` fetches id,
uid, name). -/
structure Organization where
  id : String
  uid : String
  name : String
deriving DecidableEq

/-- Modelled from the spec: the join-organization mutation (resolver of
`joinOrganization` in `memberMutations.ts`, not in the file set; invoked
from `Login.tsx` onSubmit).  It accepts the invite UID and, on match,
immediately creates a MEMBER-role membership for the requesting user —
no approval step (spec section 6). -/
def joinOrganization (orgs : List Organization) (s : MembershipStore)
    (user uidInput : String) : Except SurfacedError (MembershipStore × String) :=
  match orgs.find? (fun o => o.uid == uidInput) with
  | none => .error .notFound
  | some org => .ok (s ++ [⟨user, org.id, Role.MEMBER⟩], org.id)

lemma find?_append_of_none {α : Type} (p : α → Bool) (l₁ l₂ : List α)
    (h : l₁.find? p = none) : (l₁ ++ l₂).find? p = l₂.find? p := by
  induction l₁ with
  | nil => simp
  | cons a as ih =>
    by_cases hp : p a = true
    · rw [List.find?_cons_of_pos _ hp] at h
      cases h
    · have hp' : ¬ p a := by simpa using hp
      rw [List.find?_cons_of_neg _ hp'] at h
      rw [List.cons_append, List.find?_cons_of_neg _ hp']
      exact ih h

/-- C8: joining with a UID that matches an organization's invite UID
immediately creates a membership with role exactly MEMBER for the
requesting user. -/
theorem c8_join_creates_member (orgs : List Organization)
    (s : MembershipStore) (user uidInput : String) (org : Organization)
    (hfind : orgs.find? (fun o => o.uid == uidInput) = some org)
    (hnot : findMembership s user org.id = none) :
    joinOrganization orgs s user uidInput =
      .ok (s ++ [⟨user, org.id, Role.MEMBER⟩], org.id) ∧
    findMembership (s ++ [⟨user, org.id, Role.MEMBER⟩]) user org.id =
      some ⟨user, org.id, Role.MEMBER⟩ := by
  constructor
  · unfold joinOrganization
    rw [hfind]
  · unfold findMembership
    rw [find?_append_of_none _ _ _ hnot]
    simp [membershipMatches]

/-- C8 witness: u2 joins the organization with invite UID ORG-AB12CD and
comes out holding a MEMBER membership. -/
theorem c8_join_creates_member_witness :
    joinOrganization [⟨"1", "ORG-AB12CD", "Acme"⟩] [⟨"u1", "1", .OWNER⟩]
      "u2" "ORG-AB12CD" =
      .ok ([⟨"u1", "1", .OWNER⟩, ⟨"u2", "1", .MEMBER⟩], "1") ∧
    findMembership [⟨"u1", "1", .OWNER⟩, ⟨"u2", "1", .MEMBER⟩] "u2" "1" =
      some ⟨"u2", "1", .MEMBER⟩ :=
  c8_join_creates_member [⟨"1", "ORG-AB12CD", "Acme"⟩] [⟨"u1", "1", .OWNER⟩]
    "u2" "ORG-AB12CD" ⟨"1", "ORG-AB12CD", "Acme"⟩ (by decide) (by decide)

/-- A webhook subscription as the frontend receives it: the `WebhookType`
interface in `WebhookModal.tsx` lines 15-22. -/
structure WebhookType where
  id : String
  url : String
  secret : String
  isActive : Bool
  events : List String
  createdAt : String
deriving DecidableEq

/-- The field selection of the `GET_MY_WEBHOOKS` list query (the
`myWebhooks` query in `queries.ts` lines 339-350): the ordinary list
result requests the `secret` field in plaintext. -/
def myWebhooksQueryFields : List String :=
  ["id", "url", "secret", "isActive", "events", "createdAt"]

/-- The bullet mask rendered in `WebhookModal.tsx` line 149. -/
def secretMask : String := "••••••••••••••••••••••••••••••••"

/-- The secret display of `WebhookModal.tsx` lines 145-159: the webhook's
plaintext secret straight from the list data when the client-side
`showSecret` state holds this webhook's id, the bullet mask otherwise. -/
def secretDisplay (showSecret : Option String) (w : WebhookType) : String :=
  if showSecret = some w.id then w.secret else secretMask

/-- C4 counterexample: the ordinary `myWebhooks` list query requests the
`secret` field, and the Show toggle renders the plaintext secret straight
from that list data with no separate guard-checked reveal request — so the
plaintext secret is part of the ordinary list result. -/
theorem c4_secret_in_ordinary_list_counterexample :
    "secret" ∈ myWebhooksQueryFields ∧
    secretDisplay (some "wh1")
      ⟨"wh1", "https://example.com/hook", "tok_plain", true,
        ["task.created"], "2026-01-01"⟩ = "tok_plain" := by
  exact ⟨by decide, by decide⟩

/-- C4 amended: the list query returns the plaintext secret as an ordinary
field; the UI masks it by default and reveals it through a client-side
show/hide toggle over the already-fetched list data, with no separate
guard-checked reveal operation. -/
theorem c4_secret_masked_client_side :
    ∀ w : WebhookType,
      secretDisplay none w = secretMask ∧
      secretDisplay (some w.id) w = w.secret ∧
      "secret" ∈ myWebhooksQueryFields := by
  intro w
  refine ⟨?_, ?_, by decide⟩
  · simp [secretDisplay]
  · simp [secretDisplay]

/-- Modelled from the spec: the closed set of event kinds emitted by the
core (spec section 6): `task.created` and `task.updated`, exact
case-sensitive strings. -/
def allowedEventKinds : List String := ["task.created", "task.updated"]

/-- The event kinds the frontend sends on registration
(`WebhookModal.tsx` line 55). -/
def webhookDefaultEvents : List String := ["task.created", "task.updated"]

/-- Modelled from the spec: webhook registration (resolver of
`createWebhook` in `memberMutations.ts`, not in the file set).  The
submitted event kinds are validated against the closed set at registration
time; a registration carrying an unknown kind is rejected with
ValidationError before anything else; otherwise the caller needs an ADMIN+
membership and the subscription is created active. -/
def createWebhook (s : MembershipStore) (caller org url : String)
    (kinds : List String) (newId newSecret createdAt : String) :
    Except SurfacedError WebhookType :=
  if kinds.all (fun k => allowedEventKinds.contains k) then
    match findMembership s caller org with
    | none => .error .notFound
    | some m =>
      match decide m.role .webhookCreate with
      | .allow => .ok ⟨newId, url, newSecret, true, kinds, createdAt⟩
      | .deny _ => .error .insufficientRole
  else .error .validationError

/-- C6: a webhook registration carrying an event kind outside the closed
set is rejected with ValidationError, whoever the caller is; the event
kinds the frontend actually submits all pass the validation. -/
theorem c6_event_kinds_validated (s : MembershipStore)
    (caller org url : String) (kinds : List String)
    (newId newSecret createdAt : String) (k : String)
    (hk : k ∈ kinds) (hbad : k ∉ allowedEventKinds) :
    createWebhook s caller org url kinds newId newSecret createdAt =
      .error .validationError ∧
    webhookDefaultEvents.all (fun x => allowedEventKinds.contains x) = true := by
  have hAll : ¬ (kinds.all (fun x => allowedEventKinds.contains x) = true) := by
    intro hall
    exact hbad (by simpa using List.all_eq_true.1 hall k hk)
  constructor
  · unfold createWebhook
    rw [if_neg hAll]
  · decide

/-- C6 witness: registering with the unknown kind task.deleted is rejected
with ValidationError even for the organization's OWNER. -/
theorem c6_event_kinds_validated_witness :
    createWebhook [⟨"u1", "o1", .OWNER⟩] "u1" "o1" "https://example.com/h"
      ["task.created", "task.deleted"] "w1" "sec" "2026-01-01" =
      .error .validationError ∧
    webhookDefaultEvents.all (fun x => allowedEventKinds.contains x) = true :=
  c6_event_kinds_validated [⟨"u1", "o1", .OWNER⟩] "u1" "o1"
    "https://example.com/h" ["task.created", "task.deleted"] "w1" "sec"
    "2026-01-01" "task.deleted" (by decide) (by decide)

/-- Modelled from the spec: a webhook subscription row of the registry,
keyed by organization (spec section 3). -/
structure Subscription where
  id : String
  organizationId : String
  url : String
  secret : String
  active : Bool
  eventKinds : List String
deriving DecidableEq

/-- Modelled from the spec: `matching(organizationId, eventKind)` — only
active subscriptions of the organization whose event-kind set contains the
kind, exact string match (spec section 4.3). -/
def matching (subs : List Subscription) (org kind : String) :
    List Subscription :=
  subs.filter (fun sub =>
    sub.organizationId == org && sub.active && sub.eventKinds.contains kind)

/-- Outcome of one delivery attempt (spec section 4.4:
Pending to Delivered or Failed). -/
inductive DeliveryOutcome
  | delivered
  | failed
deriving DecidableEq

/-- Response returned to the caller of a domain mutation. -/
inductive Response
  | ok
  | error (e : SurfacedError)
deriving DecidableEq

/-- Whether a response surfaces a DeliveryFailed error. -/
def isDeliveryFailed : Response → Bool
  | .error .deliveryFailed => true
  | _ => false

/-- Task status values of the board (`statusColumns` in `TaskBoard.tsx`
lines 49-53 and the zod schema in `EditTaskModal`). -/
inductive TaskStatus
  | TODO
  | IN_PROGRESS
  | DONE
deriving DecidableEq, Fintype

/-- A board task, restricted to the fields the drag-end handler and the
status-change path read. -/
structure Task where
  id : String
  status : TaskStatus
deriving DecidableEq

/-- Set the status of the task with the given id (the end effect of the
`updateTask` status mutation issued by `handleStatusChange` in
`ProjectPage.tsx`). -/
def updateTaskStatus (tasks : List Task) (tid : String) (ns : TaskStatus) :
    List Task :=
  tasks.map (fun t => if t.id == tid then { t with status := ns } else t)

lemma guard_error_cases (resources : List Resource) (s : MembershipStore)
    (actor rid : String) (a : Action) (e : SurfacedError)
    (h : guard resources s actor rid a = .error e) :
    e = .notFound ∨ e = .insufficientRole := by
  unfold guard at h
  cases hres : resolveOrg resources rid with
  | none =>
    rw [hres] at h
    injection h with h2
    exact Or.inl h2.symm
  | some org =>
    rw [hres] at h
    dsimp only at h
    cases hm : findMembership s actor org with
    | none =>
      rw [hm] at h
      injection h with h2
      exact Or.inl h2.symm
    | some m =>
      rw [hm] at h
      dsimp only at h
      cases hd : decide m.role a with
      | allow => rw [hd] at h; cases h
      | deny r =>
        rw [hd] at h
        injection h with h2
        exact Or.inr h2.symm

/-- Modelled from the spec: the update-task mutation followed by the
fire-and-forget dispatch of its `task.updated` event (spec sections 4.4
and 5; the Django resolver and dispatcher are not in the file set).  The
guard decides, the mutation commits and the caller's response is built;
the delivery outcomes — one per matching subscriber, produced by the
ambient delivery function — are returned alongside but feed neither the
state nor the response. -/
def updateTaskPipeline (resources : List Resource) (s : MembershipStore)
    (tasks : List Task) (subs : List Subscription) (actor tid : String)
    (ns : TaskStatus) (deliver : Subscription → DeliveryOutcome) :
    (List Task × Response) × List (String × DeliveryOutcome) :=
  match guard resources s actor tid .taskUpdate with
  | .error e => ((tasks, .error e), [])
  | .ok org =>
    ((updateTaskStatus tasks tid ns, .ok),
      (matching subs org "task.updated").map
        (fun sub => (sub.id, deliver sub)))

/-- C7: the committed task state and the caller's response are identical
under any two delivery functions — a delivery failure or timeout can
neither roll back nor fail the mutation — and the response never surfaces
DeliveryFailed. -/
theorem c7_delivery_isolated_from_mutation (resources : List Resource)
    (s : MembershipStore) (tasks : List Task) (subs : List Subscription)
    (actor tid : String) (ns : TaskStatus)
    (d₁ d₂ : Subscription → DeliveryOutcome) :
    (updateTaskPipeline resources s tasks subs actor tid ns d₁).1 =
      (updateTaskPipeline resources s tasks subs actor tid ns d₂).1 ∧
    isDeliveryFailed
      (updateTaskPipeline resources s tasks subs actor tid ns d₁).1.2 =
        false := by
  unfold updateTaskPipeline
  cases h : guard resources s actor tid .taskUpdate with
  | error e =>
    dsimp only
    refine ⟨rfl, ?_⟩
    rcases guard_error_cases resources s actor tid .taskUpdate e h with
      he | he <;> rw [he] <;> rfl
  | ok org => exact ⟨rfl, rfl⟩

/-- The droppable column id of a status: the status string itself
(`useDroppable` is keyed by `status` in `TaskBoard.tsx` line 149). -/
def statusId : TaskStatus → String
  | .TODO => "TODO"
  | .IN_PROGRESS => "IN_PROGRESS"
  | .DONE => "DONE"

/-- The board's status columns (`statusColumns` in `TaskBoard.tsx`
lines 49-53, keeping the status component the handler compares). -/
def statusColumns : List TaskStatus := [.TODO, .IN_PROGRESS, .DONE]

/-- A drag-end event: the dragged element's id and the id of the element
under the pointer, if any (`DragEndEvent` of dnd-kit as destructured in
`handleDragEnd`). -/
structure DragEndEvent where
  active : String
  over : Option String
deriving DecidableEq

/-- The second lookup of `handleDragEnd` (`TaskBoard.tsx` lines 223-228):
treat the over id as a task id and change status when the statuses
differ. -/
def dropOnTask (tasks : List Task) (task : Task) (activeId overId : String) :
    Option (String × TaskStatus) :=
  match tasks.find? (fun t => t.id == overId) with
  | some target =>
    if task.status ≠ target.status then some (activeId, target.status)
    else none
  | none => none

/-- `handleDragEnd` of `TaskBoard.tsx` lines 202-229, returning the
`onStatusChange` call it issues, if any: nothing without a drop target or
when the dragged id matches no task; a drop on a column of a different
status moves the task there; otherwise — including a drop on a column of
the same status, which does not return early — the over id is looked up as
a task id and a differing status moves the task. -/
def handleDragEnd (tasks : List Task) (e : DragEndEvent) :
    Option (String × TaskStatus) :=
  match e.over with
  | none => none
  | some overId =>
    match tasks.find? (fun t => t.id == e.active) with
    | none => none
    | some task =>
      match statusColumns.find? (fun c => statusId c == overId) with
      | some col =>
        if task.status ≠ col then some (e.active, col)
        else dropOnTask tasks task e.active overId
      | none => dropOnTask tasks task e.active overId

/-- The task list after the drag-end handler: unchanged when no
status-change call is issued, the moved task's status updated when one
is. -/
def applyDragEnd (tasks : List Task) (e : DragEndEvent) : List Task :=
  match handleDragEnd tasks e with
  | none => tasks
  | some (tid, ns) => updateTaskStatus tasks tid ns

lemma statusId_inj : ∀ c₁ c₂ : TaskStatus, statusId c₁ = statusId c₂ → c₁ = c₂ := by
  decide

lemma dropOnTask_some (tasks : List Task) (task : Task)
    (aId oId tid : String) (ns : TaskStatus)
    (h : dropOnTask tasks task aId oId = some (tid, ns)) :
    tid = aId ∧ task.status ≠ ns := by
  unfold dropOnTask at h
  cases hft : tasks.find? (fun t => t.id == oId) with
  | none => rw [hft] at h; cases h
  | some target =>
    rw [hft] at h
    dsimp only at h
    by_cases hst : task.status ≠ target.status
    · rw [if_pos hst] at h
      simp only [Option.some.injEq, Prod.mk.injEq] at h
      refine ⟨h.1.symm, ?_⟩
      rw [← h.2]
      exact hst
    · rw [if_neg hst] at h
      cases h

lemma dropOnTask_none_of_target_none (tasks : List Task) (task : Task)
    (aId oId : String) (h : tasks.find? (fun t => t.id == oId) = none) :
    dropOnTask tasks task aId oId = none := by
  unfold dropOnTask
  rw [h]

/-- C10 counterexample: on the board holding a task literally named TODO
(in status IN_PROGRESS) and the task t1 (in status TODO), dropping t1 onto
its own TODO column issues a status change: the column check matches but
the statuses are equal, so the code falls through and resolves the column
id TODO as a task id. -/
theorem c10_drop_own_column_counterexample :
    handleDragEnd [⟨"TODO", .IN_PROGRESS⟩, ⟨"t1", .TODO⟩]
        ⟨"t1", some "TODO"⟩ = some ("t1", .IN_PROGRESS) ∧
    (([⟨"TODO", .IN_PROGRESS⟩, ⟨"t1", .TODO⟩] : List Task).find?
        (fun t => t.id == "t1") = some ⟨"t1", .TODO⟩) ∧
    statusId TaskStatus.TODO = "TODO" := by
  exact ⟨by decide, by decide, by decide⟩

/-- C10 amended: a drop with no target, or whose dragged id matches no
task, issues no status change and leaves the list unchanged; every issued
status change carries a status different from the dragged task's current
one; and — provided no task id collides with a column id — dropping a task
onto its own column issues no status change, as does a drop on an id that
is neither a column nor a task. -/
theorem c10_drag_end_amended (tasks : List Task) (a o : String) :
    (handleDragEnd tasks ⟨a, none⟩ = none ∧
      applyDragEnd tasks ⟨a, none⟩ = tasks) ∧
    (tasks.find? (fun t => t.id == a) = none →
      handleDragEnd tasks ⟨a, some o⟩ = none ∧
      applyDragEnd tasks ⟨a, some o⟩ = tasks) ∧
    (∀ (tid : String) (ns : TaskStatus),
      handleDragEnd tasks ⟨a, some o⟩ = some (tid, ns) →
      tid = a ∧ ∃ task, tasks.find? (fun t => t.id == a) = some task ∧
        task.status ≠ ns) ∧
    (∀ task, tasks.find? (fun t => t.id == a) = some task →
      o = statusId task.status →
      (∀ t ∈ tasks, ∀ c : TaskStatus, t.id ≠ statusId c) →
      handleDragEnd tasks ⟨a, some o⟩ = none ∧
      applyDragEnd tasks ⟨a, some o⟩ = tasks) ∧
    (∀ task, tasks.find? (fun t => t.id == a) = some task →
      statusColumns.find? (fun c => statusId c == o) = none →
      tasks.find? (fun t => t.id == o) = none →
      handleDragEnd tasks ⟨a, some o⟩ = none ∧
      applyDragEnd tasks ⟨a, some o⟩ = tasks) := by
  refine ⟨⟨rfl, rfl⟩, ?_, ?_, ?_, ?_⟩
  · intro h
    have hnone : handleDragEnd tasks ⟨a, some o⟩ = none := by
      unfold handleDragEnd
      dsimp only
      rw [h]
    exact ⟨hnone, by unfold applyDragEnd; rw [hnone]⟩
  · intro tid ns h
    unfold handleDragEnd at h
    dsimp only at h
    cases hfind : tasks.find? (fun t => t.id == a) with
    | none => rw [hfind] at h; cases h
    | some task =>
      rw [hfind] at h
      dsimp only at h
      cases hcol : statusColumns.find? (fun c => statusId c == o) with
      | some col =>
        rw [hcol] at h
        dsimp only at h
        by_cases hdiff : task.status ≠ col
        · rw [if_pos hdiff] at h
          simp only [Option.some.injEq, Prod.mk.injEq] at h
          refine ⟨h.1.symm, task, rfl, ?_⟩
          rw [← h.2]
          exact hdiff
        · rw [if_neg hdiff] at h
          obtain ⟨h1, h2⟩ := dropOnTask_some tasks task a o tid ns h
          exact ⟨h1, task, rfl, h2⟩
      | none =>
        rw [hcol] at h
        dsimp only at h
        obtain ⟨h1, h2⟩ := dropOnTask_some tasks task a o tid ns h
        exact ⟨h1, task, rfl, h2⟩
  · intro task hfind ho hsep
    have htarget : tasks.find? (fun t => t.id == o) = none := by
      rw [List.find?_eq_none]
      intro t ht
      have := hsep t ht task.status
      rw [ho]
      simpa using this
    have hmain : handleDragEnd tasks ⟨a, some o⟩ = none := by
      unfold handleDragEnd
      dsimp only
      rw [hfind]
      dsimp only
      cases hcol : statusColumns.find? (fun c => statusId c == o) with
      | some col =>
        dsimp only
        have hpc := List.find?_some hcol
        have hcid : statusId col = o := by simpa using hpc
        have hcEq : col = task.status := statusId_inj col task.status (by rw [hcid, ho])
        rw [if_neg (by rw [hcEq]; exact fun hne => hne rfl)]
        exact dropOnTask_none_of_target_none tasks task a o htarget
      | none =>
        dsimp only
        exact dropOnTask_none_of_target_none tasks task a o htarget
    exact ⟨hmain, by unfold applyDragEnd; rw [hmain]⟩
  · intro task hfind hcol htarget
    have hmain : handleDragEnd tasks ⟨a, some o⟩ = none := by
      unfold handleDragEnd
      dsimp only
      rw [hfind]
      dsimp only
      rw [hcol]
      dsimp only
      exact dropOnTask_none_of_target_none tasks task a o htarget
    exact ⟨hmain, by unfold applyDragEnd; rw [hmain]⟩

/-- C10 witness: on a collision-free two-task board, dropping t1 onto its
own TODO column and dropping t1 with no target both issue no status change
and leave the list unchanged. -/
theorem c10_drag_end_amended_witness :
    (handleDragEnd [⟨"t1", .TODO⟩, ⟨"t2", .DONE⟩] ⟨"t1", some "TODO"⟩ =
        none ∧
      applyDragEnd [⟨"t1", .TODO⟩, ⟨"t2", .DONE⟩] ⟨"t1", some "TODO"⟩ =
        [⟨"t1", .TODO⟩, ⟨"t2", .DONE⟩]) ∧
    (handleDragEnd [⟨"t1", .TODO⟩, ⟨"t2", .DONE⟩] ⟨"t1", none⟩ = none ∧
      applyDragEnd [⟨"t1", .TODO⟩, ⟨"t2", .DONE⟩] ⟨"t1", none⟩ =
        [⟨"t1", .TODO⟩, ⟨"t2", .DONE⟩]) :=
  ⟨(c10_drag_end_amended [⟨"t1", .TODO⟩, ⟨"t2", .DONE⟩] "t1" "TODO").2.2.2.1
      ⟨"t1", .TODO⟩ (by decide) (by decide) (by decide),
    (c10_drag_end_amended [⟨"t1", .TODO⟩, ⟨"t2", .DONE⟩] "t1" "TODO").1⟩

end Orgaflow
